import Mathlib

/-!
Shallow embedding of the kyabia concurrent directory-scraping subsystem
(`internal/scraper/scraper.go`, the scraping functions, the `models.Video`
data type and the SQLite `VideoRepo`), together with theorems settling the
specification claims about it.

Conventions of the embedding:
* Go `string` is Lean `String`; Go `int` and `time.Duration` (an `int64`)
  are Lean `Int`; Go `uint` is Lean `Nat`; `time.Time` is modelled as a
  `Nat` tick count whose zero value is `0`.
* A Go struct literal that omits a field leaves the field at its zero
  value; the embedding spells those zero values out explicitly.
* External collaborators (the SHA-512 digest, the regular-expression
  engine, the language-tag parser, the MIME table) are parameters of the
  functions that consume them, mirroring the fact that the scraper treats
  them as opaque.
-/

namespace Kyabia

/-- Embedding of `models.Dimensions` and `models.VideoSummary` flattened into
`models.Video`: the full catalog record for one video file. -/
structure Video where
  SHA512 : String := ""
  Title : String := ""
  Artist : String := ""
  Language : String := ""
  RelatedMedium : String := ""
  MediumDetail : String := ""
  Description : String := ""
  Duration : Int := 0
  Identifier : String := ""
  Filename : String := ""
  Width : Int := 0
  Height : Int := 0
  VideoFormat : String := ""
  VideoBitrate : Int := 0
  AudioFormat : String := ""
  AudioBitrate : Int := 0
  CreatedAt : Nat := 0
  UpdatedAt : Nat := 0
  NumPlayed : Nat := 0
  NumRequested : Nat := 0
  deriving DecidableEq, Repr

/-- Function `mergeString`: the first (existing) value wins unless it is empty. -/
def mergeString (first : String) (second : String) : String :=
  if first = "" then second else first

/-- Function `mergeInt`: the first (existing) value wins unless it is zero. -/
def mergeInt (first : Int) (second : Int) : Int :=
  if first = 0 then second else first

/-- Function `mergeDuration`: the first (existing) value wins unless it is zero. -/
def mergeDuration (first : Int) (second : Int) : Int :=
  if first = 0 then second else first

/-- Function `mergeVideos` from `scraper.go`: builds a fresh `models.Video` struct
literal; every field not mentioned in the literal is left at its Go zero
value — in particular `CreatedAt`, `UpdatedAt`, `NumPlayed` and
`NumRequested`. -/
def mergeVideos (first : Video) (second : Video) : Video :=
  { SHA512 := first.SHA512
    Title := mergeString first.Title second.Title
    Artist := mergeString first.Artist second.Artist
    Language := mergeString first.Language second.Language
    RelatedMedium := mergeString first.RelatedMedium second.RelatedMedium
    MediumDetail := mergeString first.MediumDetail second.MediumDetail
    Description := mergeString first.Description second.Description
    Duration := mergeDuration first.Duration second.Duration
    Identifier := mergeString first.Identifier second.Identifier
    Filename := second.Filename
    Width := mergeInt first.Width second.Width
    Height := mergeInt first.Height second.Height
    VideoFormat := mergeString first.VideoFormat second.VideoFormat
    VideoBitrate := mergeInt first.VideoBitrate second.VideoBitrate
    AudioFormat := mergeString first.AudioFormat second.AudioFormat
    AudioBitrate := mergeInt first.AudioBitrate second.AudioBitrate
    CreatedAt := 0
    UpdatedAt := 0
    NumPlayed := 0
    NumRequested := 0 }

/-- The row state kept by the SQLite `Videos` table, keyed by hash. -/
abbrev Catalog := List (String × Video)

/-- Assoc-list lookup standing for `SELECT ... WHERE sha512 = ?`. -/
def catalogGet (c : Catalog) (id : String) : Option Video :=
  (c.find? (fun p => p.1 = id)).map (fun p => p.2)

/-- Method `VideoRepo.Update` of the SQLite repository: overwrites every column
of the row whose `sha512` matches, taking `filename`, all metadata
columns, `numPlayed` and `numRequested` from the record passed in;
`createdAt` is left untouched and `updatedAt` is set to the current time
by the database. -/
def VideoRepo.update (c : Catalog) (v : Video) (now : Nat) : Catalog :=
  c.map (fun p =>
    if p.1 = v.SHA512 then
      (p.1,
        { v with
          SHA512 := p.1
          CreatedAt := p.2.CreatedAt
          UpdatedAt := now })
    else p)

/-- Method `VideoRepo.Create` of the SQLite repository: inserts a new row with
`numPlayed = 0`, `numRequested = 0` and both timestamps set to now. -/
def VideoRepo.create (c : Catalog) (v : Video) (now : Nat) : Catalog :=
  (v.SHA512,
    { v with NumPlayed := 0, NumRequested := 0, CreatedAt := now, UpdatedAt := now }) :: c

/-- Character-list equality-prefix test used to implement the Go string
helpers (`strings.Contains`, `strings.HasPrefix`) executably. -/
def charsPrefixOf : List Char → List Char → Bool
  | [], _ => true
  | _ :: _, [] => false
  | a :: as, b :: bs => a == b && charsPrefixOf as bs

/-- Does `hay` contain `needle` as a contiguous infix? -/
def charsContains (needle : List Char) : List Char → Bool
  | [] => charsPrefixOf needle []
  | c :: cs => charsPrefixOf needle (c :: cs) || charsContains needle cs

/-- Go `strings.Contains(s, substr)`: `substr` occurs inside `s`. -/
def strContains (s : String) (substr : String) : Bool :=
  charsContains substr.data s.data

/-- Go `strings.HasPrefix(s, prefixStr)`. -/
def strStartsWith (s : String) (p : String) : Bool :=
  charsPrefixOf p.data s.data

/-- The `Status*` constants of the scraper. -/
inductive ScrapeStatus where
  | queued
  | running
  | finished
  | failed
  | cancelled
  deriving DecidableEq, Repr

/-- The errors a `Scrape` record can carry in its `Err` field. -/
inductive ScrapeError where
  /-- Error `ErrAlreadyQueued` -/
  | alreadyQueued
  /-- any other error, carrying its message -/
  | genericErr (msg : String)
  deriving DecidableEq, Repr

/-- The observable fields of the `Scrape` struct (the channels, logger,
function list and repo handle are execution plumbing, not data). -/
structure Scrape where
  Status : ScrapeStatus := .queued
  RootDir : String := ""
  CurrentDir : String := ""
  CurrentFile : String := ""
  NumFiles : Nat := 0
  NumNewFiles : Nat := 0
  NumUpdatedFiles : Nat := 0
  StartedAt : Nat := 0
  Err : Option ScrapeError := none
  deriving DecidableEq, Repr

/-- Function `scrapeRunning` from `scraper.go`: some record in the registry is
Queued or Running and its root occurs — via `strings.Contains` — inside
the new root. The registry map is modelled as a list of records; `any`
is insensitive to iteration order, like the Go range over the map. -/
def scrapeRunning (runningScrapes : List Scrape) (newRootDir : String) : Bool :=
  runningScrapes.any (fun scrape =>
    (scrape.Status == .running || scrape.Status == .queued) &&
      strContains newRootDir scrape.RootDir)

/-- The synchronous part of `startScraping`: build the fresh Queued record
and reject it with `ErrAlreadyQueued` when `scrapeRunning` fires; the
registry itself is never touched here (the record reaches the registry
only through later status-update messages). -/
def startScraping (running : List Scrape) (rootDir : String) (now : Nat) : Scrape :=
  let scr : Scrape := { RootDir := rootDir, Status := .queued, StartedAt := now }
  if scrapeRunning running rootDir then
    { scr with Err := some .alreadyQueued, Status := .failed }
  else
    scr

/-- Claim-side notion (from the spec's words, for comparison with the
source's check): `p` is a path-wise prefix of `q` — equal, or a parent
directory along path-component boundaries. -/
def isPathPrefixOf (p : String) (q : String) : Bool :=
  p == q || strStartsWith q (p ++ "/")

/-- Claim-side predicate (from the claim's words): every field of the
record is non-empty / non-zero, counters and timestamps included. -/
def fullyPopulated (v : Video) : Bool :=
  v.SHA512 != "" && v.Title != "" && v.Artist != "" && v.Language != "" &&
  v.RelatedMedium != "" && v.MediumDetail != "" && v.Description != "" &&
  v.Duration != 0 && v.Identifier != "" && v.Filename != "" &&
  v.Width != 0 && v.Height != 0 && v.VideoFormat != "" && v.VideoBitrate != 0 &&
  v.AudioFormat != "" && v.AudioBitrate != 0 && v.CreatedAt != 0 &&
  v.UpdatedAt != 0 && v.NumPlayed != 0 && v.NumRequested != 0

/-- A sample record with every field populated, for concrete instances. -/
def sampleFullVideo : Video :=
  { SHA512 := "h1", Title := "T", Artist := "A", Language := "ja",
    RelatedMedium := "M", MediumDetail := "Op 1", Description := "D",
    Duration := 90, Identifier := "17", Filename := "f.mp4",
    Width := 640, Height := 480, VideoFormat := "h264", VideoBitrate := 1200,
    AudioFormat := "aac", AudioBitrate := 128, CreatedAt := 5, UpdatedAt := 6,
    NumPlayed := 3, NumRequested := 5 }

/-- An existing catalog record that has been played and requested. -/
def sampleCatalogVideo : Video :=
  { SHA512 := "h2", Title := "Custom Name", Filename := "old.mp4",
    CreatedAt := 10, UpdatedAt := 11, NumPlayed := 3, NumRequested := 5 }

/-- A freshly extracted record for the same hash as `sampleCatalogVideo`. -/
def sampleRescrapedVideo : Video :=
  { SHA512 := "h2", Title := "Extracted Name", Filename := "new.mp4" }

/-- Go `strings.TrimSpace`. -/
def strTrimSpace (s : String) : String :=
  ⟨((s.data.dropWhile Char.isWhitespace).reverse.dropWhile Char.isWhitespace).reverse⟩

/-- Go `filepath.Base` for the clean, slash-separated paths the walker
builds: the part after the last separator. -/
def baseNameOf (s : String) : String :=
  ⟨s.data.foldl (fun acc c => if c == '/' then [] else acc ++ [c]) []⟩

/-- Removal of the `filepath.Ext` suffix: drop from the last dot on, as in
`fname[:len(fname)-len(filepath.Ext(fname))]`; without a dot the name is
unchanged. -/
def stripExtOf (s : String) : String :=
  match s.data.reverse.dropWhile (fun c => c != '.') with
  | [] => s
  | _ :: rest => ⟨rest.reverse⟩

/-- Go `path.Join(dir, name)` for the clean inputs the walker passes. -/
def pathJoin (dir : String) (name : String) : String :=
  dir ++ "/" ++ name

-- Field-name constants from `scraper.go`.

def FldTitle : String := "Title"

def FldArtist : String := "Artist"

def FldRelatedMedium : String := "RelatedMedium"

def FldMediumDetail : String := "MediumDetail"

def FldDescription : String := "Description"

def FldLanguage : String := "Language"

def FldIdentifier : String := "Identifier"

/-- One iteration of the `switch fieldName` statement in the function
returned by `MakeFileNameScraper`: write the trimmed capture value into
the named field. The Language arm first runs the external language-tag
parser (`language.Parse`), modelled by the `parseLang` parameter, and
silently drops unparseable tags. An unknown field name changes nothing. -/
def applyFieldCapture (parseLang : String → Option String)
    (vid : Video) (fieldName : String) (val : String) : Video :=
  if fieldName = FldIdentifier then { vid with Identifier := val }
  else if fieldName = FldArtist then { vid with Artist := val }
  else if fieldName = FldTitle then { vid with Title := val }
  else if fieldName = FldRelatedMedium then { vid with RelatedMedium := val }
  else if fieldName = FldMediumDetail then { vid with MediumDetail := val }
  else if fieldName = FldDescription then { vid with Description := val }
  else if fieldName = FldLanguage then
    match parseLang val with
    | some tag => { vid with Language := tag }
    | none => vid
  else vid

/-- Body of the scraping function returned by `MakeFileNameScraper`, given
the output `matches` of `FindStringSubmatch` on the base name (empty list
when the regular expression does not match): when there is a match, every
entry of the preset's `FieldIndexMap` whose index is in range overwrites
its field with the trimmed capture. The Go map iteration order is random;
since distinct keys write distinct fields, a left fold over the listed
pairs represents it. -/
def fileNameScraperApply (fieldMap : List (String × Nat))
    (parseLang : String → Option String) (ms : List String) (vid : Video) : Video :=
  if ms.isEmpty then vid
  else
    fieldMap.foldl
      (fun v p =>
        if p.2 < ms.length then
          applyFieldCapture parseLang v p.1 (strTrimSpace ((ms.get? p.2).getD ""))
        else v)
      vid

/-- The complete filename scraper: `FindStringSubmatch` (modelled by the
`matchFn` parameter, the compiled preset regex being external) is run on
`path.Base` of the file name, and the captures are applied. -/
def makeFileNameScraper (matchFn : String → List String)
    (fieldMap : List (String × Nat)) (parseLang : String → Option String)
    (filename : String) (vid : Video) : Video :=
  fileNameScraperApply fieldMap parseLang (matchFn (baseNameOf filename)) vid

/-- Field map of the built-in preset `ID_Language_Artist_Title_Type_Anime`. -/
def presetFieldMap1 : List (String × Nat) :=
  [(FldIdentifier, 1), (FldLanguage, 2), (FldArtist, 3), (FldTitle, 4),
    (FldMediumDetail, 5), (FldRelatedMedium, 6)]

/-- Output of `FindStringSubmatch` for the preset regex
`^([0-9]+)_([^_]+)_([^_]+)_([^_]+)_?([^_]*)?_?([^_]*)?(_([^_]*))*\.[^\.]+$`
on the file name `1_en_artist_title.mp4`: the four mandatory groups
capture `1`, `en`, `artist`, `title`; the optional groups 5–8 participate
with empty captures. -/
def presetMatches1 : List String :=
  ["1_en_artist_title.mp4", "1", "en", "artist", "title", "", "", "", ""]

/-- Read length of `ScrapeSHA512`: 1 MiB. -/
def sha512ReadLen : Nat := 1024 * 1024

/-- The byte string `ScrapeSHA512` feeds to the digest: the 1 MiB buffer
`b` after the single `f.Read(b)` — the file's leading bytes followed by
the buffer's untouched zero bytes. -/
def sha512Input (content : List Nat) : List Nat :=
  content.take sha512ReadLen ++ List.replicate (sha512ReadLen - content.length) 0

/-- Function `ScrapeSHA512` on a file that opened successfully, the
hex-encoded SHA-512 digest being the external `digestHex` parameter
(`hex.EncodeToString` composed with `sha512`): it stores the digest of
the padded read buffer into the record's SHA512 field. -/
def scrapeSHA512 (digestHex : List Nat → String) (content : List Nat) (vid : Video) : Video :=
  { vid with SHA512 := digestHex (sha512Input content) }

/-- A directory subtree as the walker sees it (the error-free file
system: every directory listed successfully). -/
inductive Entry where
  | file (name : String)
  | dir (name : String) (entries : List Entry)
  deriving Repr

/-- State threaded through the walk: the scrape record (pointed to by
`scr *Scrape` in Go), the catalog store, and the stop-channel state — how
many polls have happened and whether the single buffered stop value has
been consumed. -/
structure WalkState where
  scr : Scrape
  repo : Catalog
  pollCount : Nat := 0
  stopConsumed : Bool := false
  deriving Repr

/-- Stop-channel receive readiness: the one stop value sent by `Stop` is
available once the walk has reached poll number `stopAt` (its delivery
point in the modelled schedule) and it has not been consumed yet. -/
def stopAvailable (stopAt : Option Nat) (st : WalkState) : Bool :=
  !st.stopConsumed &&
    (match stopAt with
     | none => false
     | some k => k ≤ st.pollCount)

/-- Method `Scrape.file`: run the extraction pipeline (`extract` models
the loop over the configured scraping functions starting from a record
holding only the file name; `none` is a pipeline error, which skips the
file). A record without a SHA512 hash is skipped; an all-whitespace title
is backfilled from the file's base name without extension; then the
catalog is reconciled — merge+update for a known hash, create otherwise.
The enclosing `walkDir` increments `NumFiles` exactly when `file`
returned without error, which the model folds in here; the store's
`datetime('now')` column writes are irrelevant to the claims and take 0. -/
def scrapeFile (extract : String → Option Video) (st : WalkState) : WalkState :=
  match extract st.scr.CurrentFile with
  | none => st
  | some vid0 =>
    if vid0.SHA512 = "" then st
    else
      let vid1 :=
        if strTrimSpace vid0.Title = "" then
          { vid0 with Title := stripExtOf (baseNameOf vid0.Filename) }
        else vid0
      match catalogGet st.repo vid1.SHA512 with
      | some exVid =>
        { st with
          repo := VideoRepo.update st.repo (mergeVideos exVid vid1) 0
          scr := { st.scr with
                    NumUpdatedFiles := st.scr.NumUpdatedFiles + 1
                    NumFiles := st.scr.NumFiles + 1 } }
      | none =>
        { st with
          repo := VideoRepo.create st.repo vid1 0
          scr := { st.scr with
                    NumNewFiles := st.scr.NumNewFiles + 1
                    NumFiles := st.scr.NumFiles + 1 } }

mutual

/-- One entry of the `range files` loop body of `walkDir` (the part after
the stop poll): directories update `CurrentDir` and recurse — an error
return from the recursion is only logged — and files passing the video
MIME check update `CurrentFile` and go through `Scrape.file`. -/
def walkEntry (isVideo : String → Bool) (extract : String → Option Video)
    (stopAt : Option Nat) (e : Entry) (dir : String) (st : WalkState) : WalkState :=
  match e with
  | .dir name children =>
    let path := pathJoin dir name
    let st := { st with scr := { st.scr with CurrentDir := path, CurrentFile := "" } }
    walkList isVideo extract stopAt children path st
  | .file name =>
    let path := pathJoin dir name
    if isVideo path then
      let st := { st with scr := { st.scr with CurrentFile := path } }
      scrapeFile extract st
    else st

/-- The `range files` loop of `walkDir` over one directory's entries: the
stop channel is polled before each entry; on receipt the record is marked
Cancelled, the transient path fields are cleared and this call returns at
once (the Go `return nil`) — the caller one level up continues with its
own remaining entries. After the last entry a final non-blocking receive
drains a still-pending stop value. -/
def walkList (isVideo : String → Bool) (extract : String → Option Video)
    (stopAt : Option Nat) (es : List Entry) (dir : String) (st : WalkState) : WalkState :=
  match es with
  | [] =>
    if stopAvailable stopAt st then { st with stopConsumed := true } else st
  | e :: rest =>
    if stopAvailable stopAt st then
      { st with
        stopConsumed := true
        scr := { st.scr with Status := .cancelled, CurrentDir := "", CurrentFile := "" } }
    else
      let st := { st with pollCount := st.pollCount + 1 }
      walkList isVideo extract stopAt rest dir (walkEntry isVideo extract stopAt e dir st)

end

/-- The worker body from `startScraping` once the token is held, walking
an existing root directory: status becomes Running with `CurrentDir` at
the root, the tree is walked, the transient fields are cleared, and —
since the modelled file system produces no error — the status becomes
Finished unless the walk marked it Cancelled. -/
def runScrape (isVideo : String → Bool) (extract : String → Option Video)
    (stopAt : Option Nat) (repo0 : Catalog) (root : String)
    (entries : List Entry) : WalkState :=
  let st0 : WalkState :=
    { scr := { RootDir := root, Status := .running, CurrentDir := root }, repo := repo0 }
  let st1 := walkList isVideo extract stopAt entries root st0
  { st1 with
    scr := { st1.scr with
              CurrentDir := ""
              CurrentFile := ""
              Status := if st1.scr.Status = .cancelled then .cancelled else .finished } }

mutual

/-- Content hashes of the media files of one entry, in walk order: the
hash the pipeline would extract for each file that passes the MIME check
and yields a hash. -/
def entryHashes (isVideo : String → Bool) (extract : String → Option Video)
    (e : Entry) (dir : String) : List String :=
  match e with
  | .dir name children => listHashes isVideo extract children (pathJoin dir name)
  | .file name =>
    let path := pathJoin dir name
    if isVideo path then
      match extract path with
      | some vid => if vid.SHA512 = "" then [] else [vid.SHA512]
      | none => []
    else []

/-- Content hashes of the media files of a subtree, in walk order. -/
def listHashes (isVideo : String → Bool) (extract : String → Option Video)
    (es : List Entry) (dir : String) : List String :=
  match es with
  | [] => []
  | e :: rest =>
    entryHashes isVideo extract e dir ++ listHashes isVideo extract rest dir

end

/-- Concrete subtree for the cancellation scenario: a subdirectory with
one media file, followed by a second media file in the root. -/
def demoTree : List Entry :=
  [Entry.dir "d" [Entry.file "a.mp4"], Entry.file "b.mp4"]

/-- Walk of `demoTree` rooted at `/media` with the stop signal delivered
before poll number 1 — the poll for `a.mp4` inside the subdirectory `d` —
over an empty catalog; every path is a media file and extraction yields a
record whose hash is the path itself. -/
def demoCancelledWalk : WalkState :=
  runScrape (fun p => strContains p ".mp4")
    (fun p => some { Filename := p, SHA512 := p, Title := "t" })
    (some 1) [] "/media" demoTree

/-- Phase of one scrape worker with respect to the token semaphore:
Queued before `queueSemaphore <- 1`, Running while it holds a token,
done after `<-s.queueSemaphore` returned the token. -/
inductive WorkerPhase where
  | queued
  | running
  | done
  deriving DecidableEq, Repr

/-- States of the worker pool: the phases of the workers spawned so far. -/
abbrev PoolState := List WorkerPhase

/-- Number of workers currently in the Running phase — equal to the
number of tokens buffered in the semaphore channel. -/
def runningCount (σ : PoolState) : Nat :=
  σ.countP (fun w => w == .running)

/-- Capacity of `queueSemaphore` as set by `New`: only two scrapes are
allowed in parallel. -/
def semCapacity : Nat := 2

/-- Transitions of the worker pool, from `startScraping`: an accepted
start spawns a Queued worker; `queueSemaphore <- 1` completes only while
fewer than `semCapacity` tokens are buffered and moves the worker to
Running; when the walk ends the worker returns its token unconditionally
and is done. -/
inductive PoolStep : PoolState → PoolState → Prop where
  | start (σ : PoolState) : PoolStep σ (σ ++ [.queued])
  | acquire (pre post : List WorkerPhase)
      (h : runningCount (pre ++ post) < semCapacity) :
      PoolStep (pre ++ .queued :: post) (pre ++ .running :: post)
  | release (pre post : List WorkerPhase) :
      PoolStep (pre ++ .running :: post) (pre ++ .done :: post)

/-- Pool states reachable from the initial, workerless state. -/
inductive PoolReachable : PoolState → Prop where
  | init : PoolReachable []
  | step {σ σ' : PoolState} : PoolReachable σ → PoolStep σ σ' → PoolReachable σ'

/-- Actions of the worker goroutine spawned by `startScraping`, in
program order. -/
inductive WorkerEvent where
  | acquireToken
  | pushStatus (s : Scrape)
  | releaseToken
  deriving DecidableEq, Repr

/-- The worker goroutine's action sequence as written in `startScraping`:
take a token, push the Running snapshot, push walk progress, return the
token, push the terminal snapshot. -/
def workerEvents (runningSnapshot : Scrape) (walkPushes : List Scrape)
    (finalSnapshot : Scrape) : List WorkerEvent :=
  WorkerEvent.acquireToken :: WorkerEvent.pushStatus runningSnapshot ::
    (walkPushes.map WorkerEvent.pushStatus ++
      [WorkerEvent.releaseToken, WorkerEvent.pushStatus finalSnapshot])

/-- The registry owned by the `manage` goroutine: `scrapeMap`, keyed by
root directory. -/
abbrev Registry := List (String × Scrape)

/-- Map lookup `scrapes[rootDir]`. -/
def registryLookup (reg : Registry) (root : String) : Option Scrape :=
  (reg.find? (fun p => p.1 == root)).map Prod.snd

/-- The status-update arm of `manage`: `scrapes[s.RootDir] = s`. -/
def handleStatusUpdate (reg : Registry) (s : Scrape) : Registry :=
  if reg.any (fun p => p.1 == s.RootDir) then
    reg.map (fun p => if p.1 == s.RootDir then (p.1, s) else p)
  else
    (s.RootDir, s) :: reg

/-- The status-request arm of `manage`: an empty root designator streams
a copy of every record; otherwise one copy, or nothing when unknown. -/
def handleStatusQuery (reg : Registry) (root : String) : List Scrape :=
  if root = "" then reg.map Prod.snd
  else
    match registryLookup reg root with
    | some s => [s]
    | none => []

/-- The start-request arm of `manage`: call `startScraping` on the
current registry values and answer with the resulting record; the
registry data itself is handed back untouched — `startScraping` never
inserts into the map. -/
def handleStart (reg : Registry) (root : String) (now : Nat) : Scrape × Registry :=
  (startScraping (reg.map Prod.snd) root now, reg)

/-- Claim-side bundling of the additivity contract for one extraction
step: `w` (the record after the step) agrees with `v` on every field the
step could not have been mapped to — unconditionally on the fields the
filename scraper can never write, and on each writable field whenever its
name is not among `keys`. -/
def preservesUnmapped (v : Video) (w : Video) (keys : List String) : Prop :=
  w.Filename = v.Filename ∧ w.SHA512 = v.SHA512 ∧ w.Duration = v.Duration ∧
  w.Width = v.Width ∧ w.Height = v.Height ∧ w.VideoFormat = v.VideoFormat ∧
  w.VideoBitrate = v.VideoBitrate ∧ w.AudioFormat = v.AudioFormat ∧
  w.AudioBitrate = v.AudioBitrate ∧ w.CreatedAt = v.CreatedAt ∧
  w.UpdatedAt = v.UpdatedAt ∧ w.NumPlayed = v.NumPlayed ∧
  w.NumRequested = v.NumRequested ∧
  (FldTitle ∉ keys → w.Title = v.Title) ∧
  (FldArtist ∉ keys → w.Artist = v.Artist) ∧
  (FldLanguage ∉ keys → w.Language = v.Language) ∧
  (FldRelatedMedium ∉ keys → w.RelatedMedium = v.RelatedMedium) ∧
  (FldMediumDetail ∉ keys → w.MediumDetail = v.MediumDetail) ∧
  (FldDescription ∉ keys → w.Description = v.Description) ∧
  (FldIdentifier ∉ keys → w.Identifier = v.Identifier)

-- ===================================================================
-- Theorems
-- ===================================================================

theorem mergeString_of_ne {a b : String} (h : a ≠ "") : mergeString a b = a := by
  simp [mergeString, h]

theorem mergeString_of_eq {a b : String} (h : a = "") : mergeString a b = b := by
  simp [mergeString, h]

theorem mergeInt_of_ne {a b : Int} (h : a ≠ 0) : mergeInt a b = a := by
  simp [mergeInt, h]

theorem mergeInt_of_eq {a b : Int} (h : a = 0) : mergeInt a b = b := by
  simp [mergeInt, h]

theorem mergeDuration_of_ne {a b : Int} (h : a ≠ 0) : mergeDuration a b = a := by
  simp [mergeDuration, h]

theorem mergeDuration_of_eq {a b : Int} (h : a = 0) : mergeDuration a b = b := by
  simp [mergeDuration, h]

theorem mergeString_self (a : String) : mergeString a a = a := by
  unfold mergeString; split <;> rfl

theorem mergeInt_self (a : Int) : mergeInt a a = a := by
  unfold mergeInt; split <;> rfl

theorem mergeDuration_self (a : Int) : mergeDuration a a = a := by
  unfold mergeDuration; split <;> rfl

/-- C1: the claim fails on the code. With a Running scrape rooted at
`/media/A/sub` in the registry, a start for `/media/A` — a path-wise
prefix of the active root — is accepted (no `AlreadyQueued` rejection),
because `scrapeRunning` only tests `strings.Contains(newRoot, existing)`;
and the relation the code does use is substring containment, not path
prefixing: an active scrape rooted at `ed` blocks a start for `/media`
although neither root is a path-wise prefix of the other. -/
theorem overlap_check_not_symmetric_counterexample :
    isPathPrefixOf "/media/A" "/media/A/sub" = true ∧
    (startScraping [{ RootDir := "/media/A/sub", Status := .running }] "/media/A" 1).Err
      = none ∧
    (startScraping [{ RootDir := "/media/A/sub", Status := .running }] "/media/A" 1).Status
      = ScrapeStatus.queued ∧
    isPathPrefixOf "ed" "/media" = false ∧
    isPathPrefixOf "/media" "ed" = false ∧
    (startScraping [{ RootDir := "ed", Status := .running }] "/media" 1).Err
      = some ScrapeError.alreadyQueued := by
  decide

/-- C1 (amended): a start request for root R is rejected with
`AlreadyQueued` exactly when some Queued-or-Running record's root occurs
as a substring (Go `strings.Contains`) of R; in particular a start whose
root is a proper path-prefix of an active root is not rejected. -/
theorem startScraping_rejects_iff_substring
    (running : List Scrape) (root : String) (now : Nat) :
    ((startScraping running root now).Status = ScrapeStatus.failed ∧
      (startScraping running root now).Err = some ScrapeError.alreadyQueued) ↔
    ∃ s ∈ running, (s.Status = ScrapeStatus.running ∨ s.Status = ScrapeStatus.queued) ∧
      strContains root s.RootDir = true := by
  have key : scrapeRunning running root = true ↔
      ∃ s ∈ running, (s.Status = ScrapeStatus.running ∨ s.Status = ScrapeStatus.queued) ∧
        strContains root s.RootDir = true := by
    simp [scrapeRunning, List.any_eq_true]
  rw [← key]
  unfold startScraping
  cases hb : scrapeRunning running root with
  | true => simp [hb]
  | false => simp [hb]

/-- C2: the code violates the claim. The existing catalog record has
`NumPlayed = 3`, `NumRequested = 5`; after the rescrape path of
`Scrape.file` — `mergeVideos` followed by `VideoRepo.Update` — the stored
row's counters are 0 and 0, because `mergeVideos` leaves both counters at
their zero value (despite its comment saying they are taken from the
original entry) and `Update` writes `numPlayed`/`numRequested` from the
merged record into the row. -/
theorem rescrape_resets_counters_bug :
    sampleCatalogVideo.NumPlayed = 3 ∧ sampleCatalogVideo.NumRequested = 5 ∧
    (catalogGet
        (VideoRepo.update [("h2", sampleCatalogVideo)]
          (mergeVideos sampleCatalogVideo sampleRescrapedVideo) 20) "h2").map Video.NumPlayed
      = some 0 ∧
    (catalogGet
        (VideoRepo.update [("h2", sampleCatalogVideo)]
          (mergeVideos sampleCatalogVideo sampleRescrapedVideo) 20) "h2").map Video.NumRequested
      = some 0 := by
  decide

/-- C3: for every mergeable scalar field, the merged value equals the
existing one when the existing one is non-empty/non-zero and the incoming
one exactly when the existing one is empty/zero; the file name always
comes from the incoming record. -/
theorem mergeVideos_fills_gaps_only (first second : Video) :
    ((first.Title ≠ "" → (mergeVideos first second).Title = first.Title) ∧
      (first.Title = "" → (mergeVideos first second).Title = second.Title)) ∧
    ((first.Artist ≠ "" → (mergeVideos first second).Artist = first.Artist) ∧
      (first.Artist = "" → (mergeVideos first second).Artist = second.Artist)) ∧
    ((first.Language ≠ "" → (mergeVideos first second).Language = first.Language) ∧
      (first.Language = "" → (mergeVideos first second).Language = second.Language)) ∧
    ((first.RelatedMedium ≠ "" →
        (mergeVideos first second).RelatedMedium = first.RelatedMedium) ∧
      (first.RelatedMedium = "" →
        (mergeVideos first second).RelatedMedium = second.RelatedMedium)) ∧
    ((first.MediumDetail ≠ "" →
        (mergeVideos first second).MediumDetail = first.MediumDetail) ∧
      (first.MediumDetail = "" →
        (mergeVideos first second).MediumDetail = second.MediumDetail)) ∧
    ((first.Description ≠ "" →
        (mergeVideos first second).Description = first.Description) ∧
      (first.Description = "" →
        (mergeVideos first second).Description = second.Description)) ∧
    ((first.Duration ≠ 0 → (mergeVideos first second).Duration = first.Duration) ∧
      (first.Duration = 0 → (mergeVideos first second).Duration = second.Duration)) ∧
    ((first.Identifier ≠ "" → (mergeVideos first second).Identifier = first.Identifier) ∧
      (first.Identifier = "" → (mergeVideos first second).Identifier = second.Identifier)) ∧
    ((first.VideoFormat ≠ "" →
        (mergeVideos first second).VideoFormat = first.VideoFormat) ∧
      (first.VideoFormat = "" →
        (mergeVideos first second).VideoFormat = second.VideoFormat)) ∧
    ((first.VideoBitrate ≠ 0 →
        (mergeVideos first second).VideoBitrate = first.VideoBitrate) ∧
      (first.VideoBitrate = 0 →
        (mergeVideos first second).VideoBitrate = second.VideoBitrate)) ∧
    ((first.AudioFormat ≠ "" →
        (mergeVideos first second).AudioFormat = first.AudioFormat) ∧
      (first.AudioFormat = "" →
        (mergeVideos first second).AudioFormat = second.AudioFormat)) ∧
    ((first.AudioBitrate ≠ 0 →
        (mergeVideos first second).AudioBitrate = first.AudioBitrate) ∧
      (first.AudioBitrate = 0 →
        (mergeVideos first second).AudioBitrate = second.AudioBitrate)) ∧
    ((first.Width ≠ 0 → (mergeVideos first second).Width = first.Width) ∧
      (first.Width = 0 → (mergeVideos first second).Width = second.Width)) ∧
    ((first.Height ≠ 0 → (mergeVideos first second).Height = first.Height) ∧
      (first.Height = 0 → (mergeVideos first second).Height = second.Height)) ∧
    (mergeVideos first second).Filename = second.Filename :=
  ⟨⟨fun h => mergeString_of_ne h, fun h => mergeString_of_eq h⟩,
    ⟨fun h => mergeString_of_ne h, fun h => mergeString_of_eq h⟩,
    ⟨fun h => mergeString_of_ne h, fun h => mergeString_of_eq h⟩,
    ⟨fun h => mergeString_of_ne h, fun h => mergeString_of_eq h⟩,
    ⟨fun h => mergeString_of_ne h, fun h => mergeString_of_eq h⟩,
    ⟨fun h => mergeString_of_ne h, fun h => mergeString_of_eq h⟩,
    ⟨fun h => mergeDuration_of_ne h, fun h => mergeDuration_of_eq h⟩,
    ⟨fun h => mergeString_of_ne h, fun h => mergeString_of_eq h⟩,
    ⟨fun h => mergeString_of_ne h, fun h => mergeString_of_eq h⟩,
    ⟨fun h => mergeInt_of_ne h, fun h => mergeInt_of_eq h⟩,
    ⟨fun h => mergeString_of_ne h, fun h => mergeString_of_eq h⟩,
    ⟨fun h => mergeInt_of_ne h, fun h => mergeInt_of_eq h⟩,
    ⟨fun h => mergeInt_of_ne h, fun h => mergeInt_of_eq h⟩,
    ⟨fun h => mergeInt_of_ne h, fun h => mergeInt_of_eq h⟩,
    rfl⟩

/-- C3 witness: a populated Title survives the merge, an empty Artist is
filled from the incoming record, and the filename follows the incoming
record, at concrete records. -/
theorem mergeVideos_fills_gaps_only_witness :
    (mergeVideos sampleCatalogVideo sampleRescrapedVideo).Title = "Custom Name" ∧
    (mergeVideos sampleCatalogVideo sampleRescrapedVideo).Filename = "new.mp4" := by
  have h := mergeVideos_fills_gaps_only sampleCatalogVideo sampleRescrapedVideo
  exact ⟨h.1.1 (by decide), h.2.2.2.2.2.2.2.2.2.2.2.2.2.2⟩

/-- C4: the claim fails on the code. The record `sampleFullVideo` is fully
populated (every field non-empty/non-zero, counters and timestamps
included), yet `mergeVideos sampleFullVideo sampleFullVideo` differs from
it: the struct literal built by `mergeVideos` leaves `NumPlayed`,
`NumRequested`, `CreatedAt` and `UpdatedAt` at zero. -/
theorem merge_not_idempotent_on_full_record :
    fullyPopulated sampleFullVideo = true ∧
    mergeVideos sampleFullVideo sampleFullVideo ≠ sampleFullVideo := by
  decide

/-- C4 (amended): merge is idempotent on records whose playback counters
and timestamps are zero — the four fields `mergeVideos` always zeroes;
on every other field `merge(X, X)` agrees with `X` unconditionally. -/
theorem mergeVideos_idempotent_of_zero_counters (X : Video)
    (h1 : X.CreatedAt = 0) (h2 : X.UpdatedAt = 0)
    (h3 : X.NumPlayed = 0) (h4 : X.NumRequested = 0) :
    mergeVideos X X = X := by
  cases X
  simp_all [mergeVideos, mergeString_self, mergeInt_self, mergeDuration_self]

/-- C4 (amended) witness: idempotence at a concrete record with zero
counters and timestamps. -/
theorem mergeVideos_idempotent_witness :
    mergeVideos sampleRescrapedVideo sampleRescrapedVideo = sampleRescrapedVideo :=
  mergeVideos_idempotent_of_zero_counters sampleRescrapedVideo rfl rfl rfl rfl

/-- C7: in every reachable pool state at most `semCapacity = 2` workers
are in the Running phase — a worker enters Running only through the
semaphore-send transition, which is enabled only while fewer than two
tokens are out, and the token is returned when the walk ends. -/
theorem running_scrapes_bounded (σ : PoolState) (h : PoolReachable σ) :
    runningCount σ ≤ semCapacity := by
  induction h with
  | init => simp [runningCount]
  | step hr hs ih =>
    cases hs with
    | start σ =>
      simp only [runningCount, List.countP_append, List.countP_cons] at ih ⊢
      simp_all [semCapacity]
    | acquire pre post hlt =>
      simp only [runningCount, List.countP_append, List.countP_cons,
        semCapacity] at hlt ⊢
      simp_all
      omega
    | release pre post =>
      simp only [runningCount, List.countP_append, List.countP_cons,
        semCapacity] at ih ⊢
      simp_all
      omega

/-- C7 witness: the bound holds at the concrete reachable state with one
Running and one Queued worker. -/
theorem running_scrapes_bounded_witness :
    runningCount [WorkerPhase.running, WorkerPhase.queued] ≤ semCapacity :=
  running_scrapes_bounded [WorkerPhase.running, WorkerPhase.queued]
    (PoolReachable.step
      (PoolReachable.step
        (PoolReachable.step PoolReachable.init (PoolStep.start []))
        (PoolStep.acquire [] [] (by decide)))
      (PoolStep.start [WorkerPhase.running]))

/-- C9: handling a start request hands the registry back untouched; the
worker's very first action is taking a concurrency token, and every
status push of the worker comes strictly after it; hence right after an
accepted start for an unknown root R, a status lookup for R still finds
nothing. -/
theorem start_request_keeps_registry :
    (∀ (reg : Registry) (root : String) (now : Nat),
        (handleStart reg root now).2 = reg) ∧
    (∀ (rs fs : Scrape) (wp : List Scrape),
        (workerEvents rs wp fs).get? 0 = some WorkerEvent.acquireToken) ∧
    (∀ (rs fs : Scrape) (wp : List Scrape) (i : Nat) (s : Scrape),
        (workerEvents rs wp fs).get? i = some (WorkerEvent.pushStatus s) → 1 ≤ i) ∧
    (∀ (reg : Registry) (root : String) (now : Nat),
        root ≠ "" →
        registryLookup reg root = none →
        registryLookup (handleStart reg root now).2 root = none ∧
        handleStatusQuery (handleStart reg root now).2 root = []) := by
  refine ⟨fun reg root now => rfl, fun rs fs wp => rfl, ?_, ?_⟩
  · intro rs fs wp i s h
    match i with
    | 0 => simp [workerEvents] at h
    | n + 1 => omega
  · intro reg root now hroot hnone
    refine ⟨hnone, ?_⟩
    simp [handleStatusQuery, handleStart, hroot, hnone]

/-- C9 witness: at the empty registry, handling a start for `/media/A`
leaves the registry empty and a status query for that root finds
nothing. -/
theorem start_request_keeps_registry_witness :
    (handleStart [] "/media/A" 0).2 = ([] : Registry) ∧
    registryLookup (handleStart [] "/media/A" 0).2 "/media/A" = none ∧
    handleStatusQuery (handleStart [] "/media/A" 0).2 "/media/A" = [] := by
  have h := start_request_keeps_registry
  have h4 := h.2.2.2 [] "/media/A" 0 (by decide) rfl
  exact ⟨h.1 [] "/media/A" 0, h4.1, h4.2⟩

/-- C10: `ScrapeSHA512` stores the digest of the fixed 1 MiB buffer —
the file's leading bytes padded with zeros: the buffer always has length
1048576, it depends only on the file's first 1048576 bytes (two files
agreeing there get identical digest inputs), and for a file shorter than
1 MiB the digested byte string differs from the file's actual contents. -/
theorem scrapeSHA512_digests_padded_read (digestHex : List Nat → String)
    (content : List Nat) (vid : Video) :
    sha512ReadLen = 1048576 ∧
    (scrapeSHA512 digestHex content vid).SHA512 = digestHex (sha512Input content) ∧
    (sha512Input content).length = sha512ReadLen ∧
    (∀ c2 : List Nat, c2.take sha512ReadLen = content.take sha512ReadLen →
        sha512Input c2 = sha512Input content) ∧
    (content.length < sha512ReadLen → sha512Input content ≠ content) := by
  refine ⟨rfl, rfl, ?_, ?_, ?_⟩
  · simp only [sha512Input, List.length_append, List.length_take,
      List.length_replicate, sha512ReadLen]
    omega
  · intro c2 hpref
    have hlen := congrArg List.length hpref
    simp only [List.length_take] at hlen
    have hsub : sha512ReadLen - c2.length = sha512ReadLen - content.length := by
      omega
    simp only [sha512Input, hpref, hsub]
  · intro hshort heq
    have hlen := congrArg List.length heq
    simp only [sha512Input, List.length_append, List.length_take,
      List.length_replicate, sha512ReadLen] at hlen hshort
    omega

/-- C10 witness: for the one-byte file `[7]` the digested buffer differs
from the file contents. -/
theorem scrapeSHA512_digests_padded_read_witness :
    sha512Input [7] ≠ [7] := by
  have h := scrapeSHA512_digests_padded_read (fun _ => "d") [7] {}
  exact h.2.2.2.2 (by decide)

/-- C6: the code violates the claim. In `demoCancelledWalk` the stop
signal is observed at the poll for `a.mp4` inside subdirectory `d` of
root `/media`: the walker marks the scrape Cancelled there and abandons
`d`, but the recursion merely unwinds — the parent frame continues with
its remaining entry, so `b.mp4` (an entry of the scraped subtree after
the cancellation point) is still extracted and committed to the catalog,
and the final record shows one scraped file. The claim requires that no
remaining entry of the subtree be processed after the signal is
observed. -/
theorem cancellation_continues_parent_walk :
    demoCancelledWalk.scr.Status = ScrapeStatus.cancelled ∧
    demoCancelledWalk.scr.NumFiles = 1 ∧
    demoCancelledWalk.scr.NumNewFiles = 1 ∧
    catalogGet demoCancelledWalk.repo "/media/d/a.mp4" = none ∧
    (catalogGet demoCancelledWalk.repo "/media/b.mp4").isSome = true := by
  decide

theorem scrapeFile_counters (extract : String → Option Video) (st : WalkState) :
    (scrapeFile extract st).scr.NumFiles + st.scr.NumNewFiles + st.scr.NumUpdatedFiles =
      st.scr.NumFiles + (scrapeFile extract st).scr.NumNewFiles +
        (scrapeFile extract st).scr.NumUpdatedFiles := by
  unfold scrapeFile
  split
  · rfl
  · split
    · rfl
    · dsimp only
      split
      · simp
        omega
      · simp
        omega

mutual

theorem walkEntry_counters (isVideo : String → Bool) (extract : String → Option Video)
    (stopAt : Option Nat) (e : Entry) (dir : String) (st : WalkState) :
    (walkEntry isVideo extract stopAt e dir st).scr.NumFiles +
        st.scr.NumNewFiles + st.scr.NumUpdatedFiles =
      st.scr.NumFiles + (walkEntry isVideo extract stopAt e dir st).scr.NumNewFiles +
        (walkEntry isVideo extract stopAt e dir st).scr.NumUpdatedFiles := by
  cases e with
  | dir name children =>
    have h := walkList_counters isVideo extract stopAt children (pathJoin dir name)
      { st with scr := { st.scr with CurrentDir := pathJoin dir name, CurrentFile := "" } }
    simp only [walkEntry]
    simp at h
    omega
  | file name =>
    by_cases hv : isVideo (pathJoin dir name)
    · have h := scrapeFile_counters extract
        { st with scr := { st.scr with CurrentFile := pathJoin dir name } }
      simp only [walkEntry, hv, if_true]
      simp at h
      omega
    · simp [walkEntry, hv]

theorem walkList_counters (isVideo : String → Bool) (extract : String → Option Video)
    (stopAt : Option Nat) (es : List Entry) (dir : String) (st : WalkState) :
    (walkList isVideo extract stopAt es dir st).scr.NumFiles +
        st.scr.NumNewFiles + st.scr.NumUpdatedFiles =
      st.scr.NumFiles + (walkList isVideo extract stopAt es dir st).scr.NumNewFiles +
        (walkList isVideo extract stopAt es dir st).scr.NumUpdatedFiles := by
  cases es with
  | nil =>
    unfold walkList
    split <;> simp
  | cons e rest =>
    unfold walkList
    split
    · simp
    · have h1 := walkEntry_counters isVideo extract stopAt e dir
        { st with pollCount := st.pollCount + 1 }
      have h2 := walkList_counters isVideo extract stopAt rest dir
        (walkEntry isVideo extract stopAt e dir { st with pollCount := st.pollCount + 1 })
      simp at h1 h2 ⊢
      omega

end

/-- C5: whenever a scrape over a subtree whose media files carry pairwise
distinct content hashes (each file previously unseen or seen once in the
catalog) ends Finished, the final counters satisfy
`filesScraped = newFiles + updatedFiles`. Each processed file either
fails (no counter moves) or bumps `NumFiles` together with exactly one of
`NumNewFiles`/`NumUpdatedFiles`, so the equation holds for the whole
walk. -/
theorem finished_scrape_counters_add_up (isVideo : String → Bool)
    (extract : String → Option Video) (stopAt : Option Nat) (repo0 : Catalog)
    (root : String) (entries : List Entry)
    (_hfin : (runScrape isVideo extract stopAt repo0 root entries).scr.Status =
      ScrapeStatus.finished)
    (_hnodup : (listHashes isVideo extract entries root).Nodup) :
    (runScrape isVideo extract stopAt repo0 root entries).scr.NumFiles =
      (runScrape isVideo extract stopAt repo0 root entries).scr.NumNewFiles +
        (runScrape isVideo extract stopAt repo0 root entries).scr.NumUpdatedFiles := by
  have h := walkList_counters isVideo extract stopAt entries root
    { scr := { RootDir := root, Status := .running, CurrentDir := root }, repo := repo0 }
  unfold runScrape
  dsimp only
  simp at h ⊢
  omega

/-- C5 witness: the uncancelled walk of `demoTree` ends Finished with
distinct hashes and counters `2 = 2 + 0`. -/
theorem finished_scrape_counters_witness :
    (runScrape (fun p => strContains p ".mp4")
        (fun p => some { Filename := p, SHA512 := p, Title := "t" })
        none [] "/media" demoTree).scr.NumFiles =
      (runScrape (fun p => strContains p ".mp4")
          (fun p => some { Filename := p, SHA512 := p, Title := "t" })
          none [] "/media" demoTree).scr.NumNewFiles +
        (runScrape (fun p => strContains p ".mp4")
            (fun p => some { Filename := p, SHA512 := p, Title := "t" })
            none [] "/media" demoTree).scr.NumUpdatedFiles :=
  finished_scrape_counters_add_up _ _ _ _ _ _ (by decide) (by decide)

theorem preservesUnmapped_refl (v : Video) (keys : List String) :
    preservesUnmapped v v keys := by
  simp [preservesUnmapped]

theorem preservesUnmapped_trans {u v w : Video} {keys : List String}
    (h1 : preservesUnmapped u v keys) (h2 : preservesUnmapped v w keys) :
    preservesUnmapped u w keys := by
  obtain ⟨a1, a2, a3, a4, a5, a6, a7, a8, a9, a10, a11, a12, a13,
    b1, b2, b3, b4, b5, b6, b7⟩ := h1
  obtain ⟨c1, c2, c3, c4, c5, c6, c7, c8, c9, c10, c11, c12, c13,
    d1, d2, d3, d4, d5, d6, d7⟩ := h2
  exact ⟨c1.trans a1, c2.trans a2, c3.trans a3, c4.trans a4, c5.trans a5,
    c6.trans a6, c7.trans a7, c8.trans a8, c9.trans a9, c10.trans a10,
    c11.trans a11, c12.trans a12, c13.trans a13,
    fun hk => (d1 hk).trans (b1 hk), fun hk => (d2 hk).trans (b2 hk),
    fun hk => (d3 hk).trans (b3 hk), fun hk => (d4 hk).trans (b4 hk),
    fun hk => (d5 hk).trans (b5 hk), fun hk => (d6 hk).trans (b6 hk),
    fun hk => (d7 hk).trans (b7 hk)⟩

theorem preservesUnmapped_mono {v w : Video} {keys keys2 : List String}
    (hsub : keys ⊆ keys2) (h : preservesUnmapped v w keys) :
    preservesUnmapped v w keys2 := by
  obtain ⟨a1, a2, a3, a4, a5, a6, a7, a8, a9, a10, a11, a12, a13,
    b1, b2, b3, b4, b5, b6, b7⟩ := h
  exact ⟨a1, a2, a3, a4, a5, a6, a7, a8, a9, a10, a11, a12, a13,
    fun hk => b1 (fun hm => hk (hsub hm)), fun hk => b2 (fun hm => hk (hsub hm)),
    fun hk => b3 (fun hm => hk (hsub hm)), fun hk => b4 (fun hm => hk (hsub hm)),
    fun hk => b5 (fun hm => hk (hsub hm)), fun hk => b6 (fun hm => hk (hsub hm)),
    fun hk => b7 (fun hm => hk (hsub hm))⟩

theorem applyFieldCapture_preserves (parseLang : String → Option String)
    (v : Video) (f : String) (val : String) :
    preservesUnmapped v (applyFieldCapture parseLang v f val) [f] := by
  unfold applyFieldCapture preservesUnmapped
  split_ifs with h1 h2 h3 h4 h5 h6 h7
  all_goals try split
  all_goals
    simp_all [FldTitle, FldArtist, FldLanguage, FldRelatedMedium,
      FldMediumDetail, FldDescription, FldIdentifier]

theorem foldl_capture_preserves (parseLang : String → Option String) (ms : List String)
    (fieldMap : List (String × Nat)) : ∀ (vid : Video),
    preservesUnmapped vid
      (fieldMap.foldl
        (fun v p =>
          if p.2 < ms.length then
            applyFieldCapture parseLang v p.1 (strTrimSpace ((ms.get? p.2).getD ""))
          else v)
        vid)
      (fieldMap.map Prod.fst) := by
  induction fieldMap with
  | nil =>
    intro vid
    simpa using preservesUnmapped_refl vid []
  | cons hd tl ih =>
    intro vid
    simp only [List.foldl_cons, List.map_cons]
    have hstep : preservesUnmapped vid
        (if hd.2 < ms.length then
          applyFieldCapture parseLang vid hd.1 (strTrimSpace ((ms.get? hd.2).getD ""))
        else vid) [hd.1] := by
      by_cases hlt : hd.2 < ms.length
      · simpa [hlt] using applyFieldCapture_preserves parseLang vid hd.1
          (strTrimSpace ((ms.get? hd.2).getD ""))
      · simpa [hlt] using preservesUnmapped_refl vid [hd.1]
    have hrest := ih (if hd.2 < ms.length then
      applyFieldCapture parseLang vid hd.1 (strTrimSpace ((ms.get? hd.2).getD ""))
      else vid)
    refine preservesUnmapped_trans (preservesUnmapped_mono ?_ hstep)
      (preservesUnmapped_mono ?_ hrest)
    · intro x hx
      simp at hx
      simp [hx]
    · intro x hx
      simp [hx]

/-- C8: the claim fails on the code. The preset
`ID_Language_Artist_Title_Type_Anime` maps MediumDetail to capture group
5; on the file name `1_en_artist_title.mp4` the regex matches with group
5 empty, and the scraper overwrites the record's non-empty MediumDetail
(`Opening 1`) with the empty capture — an extraction function does erase
a non-empty value with an empty one. -/
theorem filename_scraper_erases_field_counterexample :
    ({ Title := "Old", MediumDetail := "Opening 1" } : Video).MediumDetail ≠ "" ∧
    (fileNameScraperApply presetFieldMap1 (fun s => some s) presetMatches1
        { Title := "Old", MediumDetail := "Opening 1" }).MediumDetail = "" := by
  decide

/-- C8 (amended): the filename-preset scraper is additive only outside
its field map: when the regex does not match, the record is unchanged,
and in every case each field whose name is not a key of the preset's
field map — and every field the scraper can never write — keeps its
value; a mapped field, however, is overwritten with the trimmed capture
value even when that value is empty. -/
theorem fileNameScraperApply_additive_off_map (fieldMap : List (String × Nat))
    (parseLang : String → Option String) (ms : List String) (vid : Video) :
    (ms = [] → fileNameScraperApply fieldMap parseLang ms vid = vid) ∧
    preservesUnmapped vid (fileNameScraperApply fieldMap parseLang ms vid)
      (fieldMap.map Prod.fst) := by
  constructor
  · intro h
    simp [fileNameScraperApply, h]
  · unfold fileNameScraperApply
    split
    · exact preservesUnmapped_refl vid _
    · exact foldl_capture_preserves parseLang ms fieldMap vid

/-- C8 (amended) witness: on a concrete record, the Description field
(not mapped by the preset) and the play counter survive a matching run
of the preset scraper. -/
theorem fileNameScraperApply_additive_witness :
    (fileNameScraperApply presetFieldMap1 (fun s => some s) presetMatches1
        { Description := "keep", NumPlayed := 9 }).Description = "keep" ∧
    (fileNameScraperApply presetFieldMap1 (fun s => some s) presetMatches1
        { Description := "keep", NumPlayed := 9 }).NumPlayed = 9 := by
  have h := fileNameScraperApply_additive_off_map presetFieldMap1 (fun s => some s)
    presetMatches1 { Description := "keep", NumPlayed := 9 }
  obtain ⟨-, f1, f2, f3, f4, f5, f6, f7, f8, f9, f10, f11, f12, f13,
    c1, c2, c3, c4, c5, c6, c7⟩ := h
  exact ⟨c6 (by decide), f12⟩

end Kyabia
